import Mathlib

/-!
Shallow embedding of the acquisition engine of the 7352A/E bench-multimeter
controller (source: 7352A_E_controller.py), together with theorems settling
the frozen claims about its specification.

Python floating-point values are modelled as exact rationals extended with
the special values inf, -inf and nan; Python exceptions are modelled with
Except.  Because the Rat field operations of the library are marked
irreducible, the embedding computes with kernel-reducible counterparts
(built from mkRat and Rat.divInt) and bridge lemmas relate them to the
ordinary field operations.
-/

deriving instance DecidableEq for Except

namespace DMM

/-- Python exception kinds reachable in the embedded code. -/
inductive PyErr where
  | typeError
  | valueError
  | zeroDivisionError
  | overflowError
  | indexError
  deriving DecidableEq, Repr

/-- Model of a Python float: an exact rational, or one of the special
values inf, -inf, nan.  Finite arithmetic is exact (binary64 rounding and
overflow are idealised away); the special values follow IEEE/Python rules. -/
inductive PyFloat where
  | num (q : ℚ)
  | inf
  | ninf
  | nan
  deriving DecidableEq, Repr

/-- A value stored in a measurement sample: a float, the string sentinel
literal used by the source for out-of-range readings, or Python None. -/
inductive PyVal where
  | float (x : PyFloat)
  | overload
  | noneV
  deriving DecidableEq, Repr

/-- Kernel-reducible product of rationals (the library Rat.mul is
irreducible). -/
def qMul (a b : ℚ) : ℚ := Rat.divInt (a.num * b.num) ((a.den : ℤ) * (b.den : ℤ))

/-- Kernel-reducible quotient of rationals. -/
def qDiv (a b : ℚ) : ℚ := Rat.divInt (a.num * b.den) ((a.den : ℤ) * b.num)

/-- Kernel-reducible sum of rationals. -/
def qAdd (a b : ℚ) : ℚ := mkRat (a.num * b.den + b.num * a.den) (a.den * b.den)

/-- Kernel-reducible difference of rationals. -/
def qSub (a b : ℚ) : ℚ := mkRat (a.num * b.den - b.num * a.den) (a.den * b.den)

theorem qMul_eq (a b : ℚ) : qMul a b = a * b := by
  rw [qMul, ← Rat.divInt_mul_divInt' a.num (a.den : ℤ) b.num (b.den : ℤ),
    Rat.num_divInt_den, Rat.num_divInt_den]

theorem qDiv_eq (a b : ℚ) : qDiv a b = a / b := (Rat.div_def' a b).symm

theorem qAdd_eq (a b : ℚ) : qAdd a b = a + b := (Rat.add_def' a b).symm

theorem qSub_eq (a b : ℚ) : qSub a b = a - b := (Rat.sub_def' a b).symm

/-- Ten to an integer power, by structural recursion so that it evaluates
inside the kernel. -/
def qpow10 : ℤ → ℚ
  | Int.ofNat k => ((10 ^ k : ℕ) : ℚ)
  | Int.negSucc k => mkRat 1 (10 ^ (k + 1))

theorem qpow10_eq_zpow (e : ℤ) : qpow10 e = (10 : ℚ) ^ e := by
  cases e with
  | ofNat k =>
    show ((10 ^ k : ℕ) : ℚ) = (10 : ℚ) ^ (k : ℤ)
    rw [zpow_natCast]
    push_cast
    rfl
  | negSucc k =>
    rw [qpow10, zpow_negSucc, Rat.mkRat_eq_div]
    push_cast
    rw [one_div]

/-- Python float comparison a < b (false whenever nan is involved). -/
def pyLtF : PyFloat → PyFloat → Bool
  | .nan, _ => false
  | _, .nan => false
  | .num a, .num b => a < b
  | .num _, .inf => true
  | .num _, .ninf => false
  | .inf, _ => false
  | .ninf, .ninf => false
  | .ninf, _ => true

/-- Python float comparison a <= b (false whenever nan is involved). -/
def pyLeF : PyFloat → PyFloat → Bool
  | .nan, _ => false
  | _, .nan => false
  | .num a, .num b => a ≤ b
  | .num _, .inf => true
  | .num _, .ninf => false
  | .inf, .inf => true
  | .inf, _ => false
  | .ninf, _ => true

/-- Python max of two floats: the second argument only when it is strictly
greater (max(a, b) keeps a on ties and on nan comparisons). -/
def pyMaxF (a b : PyFloat) : PyFloat := if pyLtF a b then b else a

/-- Python float subtraction. -/
def pySubF : PyFloat → PyFloat → PyFloat
  | .nan, _ => .nan
  | _, .nan => .nan
  | .num a, .num b => .num (qSub a b)
  | .num _, .inf => .ninf
  | .num _, .ninf => .inf
  | .inf, .inf => .nan
  | .inf, _ => .inf
  | .ninf, .ninf => .nan
  | .ninf, _ => .ninf

/-- Python float multiplication (inf * 0 is nan). -/
def pyMulF : PyFloat → PyFloat → PyFloat
  | .nan, _ => .nan
  | _, .nan => .nan
  | .num a, .num b => .num (qMul a b)
  | .num a, .inf => if a = 0 then .nan else if 0 < a then .inf else .ninf
  | .num a, .ninf => if a = 0 then .nan else if 0 < a then .ninf else .inf
  | .inf, .num b => if b = 0 then .nan else if 0 < b then .inf else .ninf
  | .ninf, .num b => if b = 0 then .nan else if 0 < b then .ninf else .inf
  | .inf, .inf => .inf
  | .inf, .ninf => .ninf
  | .ninf, .inf => .ninf
  | .ninf, .ninf => .inf

/-- Python float division.  Python raises ZeroDivisionError whenever the
divisor is the float zero, for any dividend; otherwise IEEE rules apply
(signs of zero results are identified, since the model has a single zero). -/
def pyDivF : PyFloat → PyFloat → Except PyErr PyFloat
  | x, .num b =>
    if b = 0 then .error .zeroDivisionError
    else
      match x with
      | .num a => .ok (.num (qDiv a b))
      | .inf => .ok (if 0 < b then .inf else .ninf)
      | .ninf => .ok (if 0 < b then .ninf else .inf)
      | .nan => .ok .nan
  | .nan, _ => .ok .nan
  | .num _, .inf => .ok (.num 0)
  | .num _, .ninf => .ok (.num 0)
  | .inf, .inf => .ok .nan
  | .inf, .ninf => .ok .nan
  | .ninf, .inf => .ok .nan
  | .ninf, .ninf => .ok .nan
  | _, .nan => .ok .nan

/-- Absolute value of a Python float. -/
def pyAbsF : PyFloat → PyFloat
  | .num a => .num |a|
  | .inf => .inf
  | .ninf => .inf
  | .nan => .nan

/-- math.isinf. -/
def pyIsInf : PyFloat → Bool
  | .inf => true
  | .ninf => true
  | _ => false

/-! String primitives.  The embedding works on character lists with
structurally recursive functions, mirroring the Python string methods the
source uses (str.strip, str.split, str.endswith, str.startswith). -/

/-- Whitespace test used by str.strip and str.split. -/
def isSpaceChar (c : Char) : Bool :=
  c = ' ' || c = '\t' || c = '\n' || c = '\r' || c = '\x0b' || c = '\x0c'

/-- str.strip: drop leading and trailing whitespace. -/
def pyStrip (cs : List Char) : List Char :=
  ((cs.dropWhile isSpaceChar).reverse.dropWhile isSpaceChar).reverse

/-- str.split(sep) for a one-character separator, keeping empty parts
(Python "a,,b".split(",") gives three parts). -/
def splitOnChar (sep : Char) : List Char → List (List Char)
  | [] => [[]]
  | c :: rest =>
    let r := splitOnChar sep rest
    if c = sep then [] :: r
    else
      match r with
      | [] => [[c]]
      | p :: ps => (c :: p) :: ps

/-- str.split() with no argument: split on whitespace runs, no empty
parts. -/
def splitWs : List Char → List (List Char)
  | [] => []
  | c :: rest =>
    if isSpaceChar c then splitWs rest
    else
      match splitWs rest with
      | p :: ps =>
        match rest with
        | r :: _ => if isSpaceChar r then (c :: []) :: p :: ps else (c :: p) :: ps
        | [] => (c :: p) :: ps
      | [] => [[c]]

/-- str.endswith for a one-character suffix. -/
def endsWithChar (cs : List Char) (m : Char) : Bool :=
  match cs.getLast? with
  | some c => c = m
  | none => false

/-- str.startswith. -/
def startsWithChars (cs pre : List Char) : Bool := cs.take pre.length = pre

/-- Digit character test. -/
def isDigitChar (c : Char) : Bool := '0' ≤ c && c ≤ '9'

/-- Numeric value of a digit character. -/
def digitVal (c : Char) : ℕ := c.toNat - 48

/-- Value of a digit run, most significant first. -/
def digitsToNat (ds : List Char) : ℕ := ds.foldl (fun a c => a * 10 + digitVal c) 0

/-- Model of the Python float(str) constructor: optional sign, then inf,
infinity or nan (case-insensitive), or a decimal literal
digits[.digits][(e|E)[sign]digits] with at least one mantissa digit.
Returns none where Python raises ValueError.  (Underscore digit
separators, which Python also accepts, are not modelled.) -/
def pyFloatOfChars (s : List Char) : Option PyFloat :=
  let cs0 := pyStrip s
  let sgnNeg : Bool := match cs0 with
    | '-' :: _ => true
    | _ => false
  let cs : List Char := match cs0 with
    | '+' :: rest => rest
    | '-' :: rest => rest
    | rest => rest
  let lower := cs.map Char.toLower
  if lower = ['i', 'n', 'f'] || lower = ['i', 'n', 'f', 'i', 'n', 'i', 't', 'y'] then
    some (if sgnNeg then .ninf else .inf)
  else if lower = ['n', 'a', 'n'] then some .nan
  else
    let ip := cs.takeWhile isDigitChar
    let afterInt := cs.dropWhile isDigitChar
    let fp : List Char := match afterInt with
      | '.' :: r => r.takeWhile isDigitChar
      | _ => []
    let afterFrac : List Char := match afterInt with
      | '.' :: r => r.dropWhile isDigitChar
      | r => r
    if ip.isEmpty && fp.isEmpty then none
    else
      let mant : ℚ := qAdd ((digitsToNat ip : ℕ) : ℚ)
        (qDiv ((digitsToNat fp : ℕ) : ℚ) ((10 ^ fp.length : ℕ) : ℚ))
      let signed : ℚ := if sgnNeg then -mant else mant
      match afterFrac with
      | [] => some (.num signed)
      | e :: r =>
        if e = 'e' || e = 'E' then
          let expNeg : Bool := match r with
            | '-' :: _ => true
            | _ => false
          let r2 : List Char := match r with
            | '+' :: rr => rr
            | '-' :: rr => rr
            | rr => rr
          let ed := r2.takeWhile isDigitChar
          let rest := r2.dropWhile isDigitChar
          if ed.isEmpty || !rest.isEmpty then none
          else
            let ex : ℤ := if expNeg then -(digitsToNat ed : ℤ) else (digitsToNat ed : ℤ)
            some (.num (qMul signed (qpow10 ex)))
        else none

/-! Embedding of MeasurementClass.read_measurement: the response-line
parsing algorithm (source lines 133-174).  The transport read and its
VisaIOError handling are outside the pure parsing function; the input here
is the already-read line. -/

/-- Normalisation step from the source: if value == -0.0 the value is
replaced by 0.0.  The rational model has a single zero, so this is the
identity, kept for structural fidelity. -/
def normNegZero (v : PyFloat) : PyFloat := if v = .num 0 then .num 0 else v

/-- One comma-separated part of a response line, reduced to the reading it
denotes, if any: strip; skip empty parts; split on whitespace; skip parts
with fewer than two tokens; a first token ending in the measurement marker
yields its second token parsed as a float (skipped on parse failure, with
negative zero normalised); a first token ending in the overload marker
yields the Overload sentinel; all other first tokens are skipped. -/
def parsePart (rawPart : List Char) : Option PyVal :=
  let part := pyStrip rawPart
  if part.isEmpty then none
  else
    match splitWs part with
    | pfx :: valueStr :: _ =>
      if endsWithChar pfx '_' then
        match pyFloatOfChars valueStr with
        | some v => some (.float (normNegZero v))
        | none => none
      else if endsWithChar pfx 'O' then some .overload
      else none
    | _ => none

/-- Channel assignment step of the parsing loop: the first recognised
reading becomes channel A, the second becomes channel B, later readings
are ignored. -/
def assignReading (ab : PyVal × PyVal) (v : PyVal) : PyVal × PyVal :=
  if ab.1 = .noneV then (v, ab.2)
  else if ab.2 = .noneV then (ab.1, v)
  else ab

/-- One step of the parsing loop over the comma-separated parts. -/
def readStep (ab : PyVal × PyVal) (part : List Char) : PyVal × PyVal :=
  match parsePart part with
  | some v => assignReading ab v
  | none => ab

/-- MeasurementClass.read_measurement on an already-read line: returns the
(channel A, channel B) pair, with PyVal.noneV for an absent channel. -/
def read_measurement (line : String) : PyVal × PyVal :=
  let res := (splitOnChar ',' line.data).foldl readStep (PyVal.noneV, PyVal.noneV)
  if res.1 = .noneV then (.noneV, .noneV) else res

/-- Exception-aware variant of parsePart: the float conversion raises
ValueError on failure and the source catches exactly that error
(continue); any other error would propagate. -/
def floatOfCharsE (s : List Char) : Except PyErr PyFloat :=
  match pyFloatOfChars s with
  | some v => .ok v
  | none => .error .valueError

/-- parsePart with the ValueError try/except written out explicitly. -/
def parsePartE (rawPart : List Char) : Except PyErr (Option PyVal) :=
  let part := pyStrip rawPart
  if part.isEmpty then .ok none
  else
    match splitWs part with
    | pfx :: valueStr :: _ =>
      if endsWithChar pfx '_' then
        match floatOfCharsE valueStr with
        | .ok v => .ok (some (.float (normNegZero v)))
        | .error .valueError => .ok none
        | .error e => .error e
      else if endsWithChar pfx 'O' then .ok (some .overload)
      else .ok none
    | _ => .ok none

/-- One step of the parsing loop with explicit exception propagation. -/
def readStepE (ab : PyVal × PyVal) (part : List Char) :
    Except PyErr (PyVal × PyVal) :=
  match parsePartE part with
  | .ok (some v) => .ok (assignReading ab v)
  | .ok none => .ok ab
  | .error e => .error e

/-- read_measurement with explicit exception propagation. -/
def read_measurementE (line : String) : Except PyErr (PyVal × PyVal) := do
  let res ← (splitOnChar ',' line.data).foldlM readStepE
    ((PyVal.noneV, PyVal.noneV) : PyVal × PyVal)
  if res.1 = .noneV then pure (.noneV, .noneV) else pure res

/-! Embedding of the derived-metric computation.  The authoritative copy is
inline in DMMApp.update_from_shared_memory (source lines 1503-1543); a
second copy without the ZeroDivisionError guard is inline in
GraphDisplayPage.load_data_from_list (source lines 976-1001). -/

/-- Python test value != 0 on a sample value: every value except the float
zero compares unequal to the integer 0 (the Overload string and None
included). -/
def pyNeZero : PyVal → Bool
  | .float (.num q) => decide (q ≠ 0)
  | .float _ => true
  | .overload => true
  | .noneV => true

/-- math.isnan on a sample value: raises TypeError unless the argument is
a float. -/
def pyIsnan : PyVal → Except PyErr Bool
  | .float x => .ok (x = .nan)
  | .overload => .error .typeError
  | .noneV => .error .typeError

/-- Division of two sample values; TypeError unless both are floats. -/
def pyDivVal : PyVal → PyVal → Except PyErr PyFloat
  | .float a, .float b => pyDivF a b
  | _, _ => .error .typeError

/-- Multiplication of two sample values; TypeError unless both are
floats. -/
def pyMulVal : PyVal → PyVal → Except PyErr PyFloat
  | .float a, .float b => .ok (pyMulF a b)
  | _, _ => .error .typeError

/-- Jig-mode names from the source table (four-terminal resistance A/V and
B/V, hFE, small- and large-current power). -/
def ratioAV : String := "四端子抵抗測定A_V"

def ratioBV : String := "四端子抵抗測定B_V"

def hfeMode : String := "hFE測定"

def powerSmall : String := "電力計測(小電流)"

def powerLarge : String := "電力計測(大電流)"

/-- Ratio reduction from update_from_shared_memory: the guard
ach != 0 and not isnan(ach) and not isnan(bch) evaluated with Python
short-circuiting (isnan may raise TypeError), then abs(ach / bch) inside a
try that maps ZeroDivisionError to the inf sentinel; a false guard yields
the inf sentinel. -/
def calcRatio (a b : PyVal) : Except PyErr PyFloat :=
  if pyNeZero a then
    match pyIsnan a with
    | .error e => .error e
    | .ok true => .ok .inf
    | .ok false =>
      match pyIsnan b with
      | .error e => .error e
      | .ok true => .ok .inf
      | .ok false =>
        match pyDivVal a b with
        | .error .zeroDivisionError => .ok .inf
        | .error e => .error e
        | .ok v => .ok (pyAbsF v)
  else .ok .inf

/-- hFE reduction: same guard, bch / ach inside the same try. -/
def calcGain (a b : PyVal) : Except PyErr PyFloat :=
  if pyNeZero a then
    match pyIsnan a with
    | .error e => .error e
    | .ok true => .ok .inf
    | .ok false =>
      match pyIsnan b with
      | .error e => .error e
      | .ok true => .ok .inf
      | .ok false =>
        match pyDivVal b a with
        | .error .zeroDivisionError => .ok .inf
        | .error e => .error e
        | .ok v => .ok v
  else .ok .inf

/-- Power reduction: guard not isnan(ach) and not isnan(bch), then
ach * bch with no try. -/
def calcProduct (a b : PyVal) : Except PyErr PyFloat :=
  match pyIsnan a with
  | .error e => .error e
  | .ok true => .ok .inf
  | .ok false =>
    match pyIsnan b with
    | .error e => .error e
    | .ok true => .ok .inf
    | .ok false => pyMulVal a b

/-- Derived-metric reduction as computed in DMMApp.update_from_shared_memory
(the elif chain over jig-mode names; an unrecognised name yields the inf
sentinel, which downstream filters treat as Invalid). -/
def derived_value_update (jig_mode_name : String) (a b : PyVal) :
    Except PyErr PyFloat :=
  if jig_mode_name = ratioAV then calcRatio a b
  else if jig_mode_name = ratioBV then calcRatio a b
  else if jig_mode_name = hfeMode then calcGain a b
  else if jig_mode_name = powerSmall then calcProduct a b
  else if jig_mode_name = powerLarge then calcProduct a b
  else .ok .inf

/-- Ratio reduction as written in GraphDisplayPage.load_data_from_list:
identical guard but no try around the division, so a zero channel B
raises ZeroDivisionError. -/
def calcRatioLoad (a b : PyVal) : Except PyErr PyFloat :=
  if pyNeZero a then
    match pyIsnan a with
    | .error e => .error e
    | .ok true => .ok .inf
    | .ok false =>
      match pyIsnan b with
      | .error e => .error e
      | .ok true => .ok .inf
      | .ok false =>
        match pyDivVal a b with
        | .error e => .error e
        | .ok v => .ok (pyAbsF v)
  else .ok .inf

/-- hFE reduction in load_data_from_list (no try around the division). -/
def calcGainLoad (a b : PyVal) : Except PyErr PyFloat :=
  if pyNeZero a then
    match pyIsnan a with
    | .error e => .error e
    | .ok true => .ok .inf
    | .ok false =>
      match pyIsnan b with
      | .error e => .error e
      | .ok true => .ok .inf
      | .ok false => pyDivVal b a
  else .ok .inf

/-- Derived-metric reduction as computed in
GraphDisplayPage.load_data_from_list (the two ratio modes share one
membership test there). -/
def derived_value_load (jig_mode_name : String) (a b : PyVal) :
    Except PyErr PyFloat :=
  if jig_mode_name = ratioAV || jig_mode_name = ratioBV then calcRatioLoad a b
  else if jig_mode_name = hfeMode then calcGainLoad a b
  else if jig_mode_name = powerSmall then calcProduct a b
  else if jig_mode_name = powerLarge then calcProduct a b
  else .ok .inf

/-! Embedding of the command dispatcher and the sampler loop
(MeasurementClass.run, check_commands, send_command, source lines 86-131).
Instrument transactions are recorded as an event trace; the instrument
side is an oracle list of read results. -/

/-- One observable instrument transaction. -/
inductive Ev where
  | write (s : String)
  | clearBuf
  | sleepEv
  | readLine (s : String)
  | readErr
  deriving DecidableEq, Repr

/-- Result of one transport read: a line, a VisaIOError (timeouts
included; the source retries on every VisaIOError), or another exception
(caught by the enclosing try, which aborts the command). -/
inductive ReadRes where
  | line (s : String)
  | visaErr
  | fatalErr
  deriving DecidableEq, Repr

/-- Outcome of a dispatched command. -/
inductive CmdOutcome where
  | completed
  | aborted
  | exhausted
  deriving DecidableEq, Repr

/-- The *OPC? completion poll: read lines until one strips to "1";
a VisaIOError sleeps and retries; any other transport exception aborts;
an exhausted oracle means the poll would block forever. -/
def opcPoll : List ReadRes → List Ev × List ReadRes × CmdOutcome
  | [] => ([], [], .exhausted)
  | .line s :: rest =>
    if pyStrip s.data = ['1'] then ([Ev.readLine s], rest, .completed)
    else
      let r := opcPoll rest
      (Ev.readLine s :: r.fst, r.snd.fst, r.snd.snd)
  | .visaErr :: rest =>
    let r := opcPoll rest
    (Ev.readErr :: Ev.sleepEv :: r.fst, r.snd.fst, r.snd.snd)
  | .fatalErr :: rest => ([Ev.readErr], rest, .aborted)

/-- MeasurementClass.send_command: clear status, clear the transport,
settle, write the command, settle, write the operation-complete query,
then poll for the completion token. -/
def send_command (command : String) (oracle : List ReadRes) :
    List Ev × List ReadRes × CmdOutcome :=
  let pre := [Ev.write "*CLS", Ev.clearBuf, Ev.sleepEv, Ev.write command,
    Ev.sleepEv, Ev.write "*OPC?"]
  let r := opcPoll oracle
  (pre ++ r.fst, r.snd.fst, r.snd.snd)

/-- MeasurementClass.check_commands: drain the queue; STOP sets the
termination flag, SEND and TRIGGER both go through send_command, anything
else is ignored.  Returns (trace, remaining oracle, stop flag). -/
def check_commands : List String → List ReadRes → List Ev × List ReadRes × Bool
  | [], oracle => ([], oracle, false)
  | c :: rest, oracle =>
    if c = "STOP" then
      let r := check_commands rest oracle
      (r.fst, r.snd.fst, true)
    else if startsWithChars c.data "SEND ".data then
      let s := send_command (String.mk (c.data.drop 5)) oracle
      let r := check_commands rest s.snd.fst
      (s.fst ++ r.fst, r.snd.fst, r.snd.snd)
    else if c = "TRIGGER" then
      let s := send_command "*TRG" oracle
      let r := check_commands rest s.snd.fst
      (s.fst ++ r.fst, r.snd.fst, r.snd.snd)
    else check_commands rest oracle

/-- State of the sampler loop. -/
structure SamplerState where
  queue : List String
  oracle : List ReadRes
  stopFlag : Bool
  log : List (ℕ × PyVal × PyVal)
  trace : List Ev
  tick : ℕ
  deriving DecidableEq, Repr

/-- The body of MeasurementClass.run, iterated with fuel: while the stop
flag is clear, drain commands, read and parse one response (a VisaIOError
read yields no sample), append a sample when channel A was recognised
(timestamps are modelled by the iteration counter), sleep, repeat. -/
def run_loop : ℕ → SamplerState → SamplerState
  | 0, st => st
  | f + 1, st =>
    if st.stopFlag then st
    else
      let c := check_commands st.queue st.oracle
      let st1 : SamplerState :=
        { st with
          queue := []
          oracle := c.snd.fst
          stopFlag := st.stopFlag || c.snd.snd
          trace := st.trace ++ c.fst }
      let st2 : SamplerState :=
        match st1.oracle with
        | [] => st1
        | .line s :: rest =>
          let ab := read_measurement s
          let stR : SamplerState :=
            { st1 with oracle := rest, trace := st1.trace ++ [Ev.readLine s] }
          if ab.1 ≠ .noneV then
            { stR with log := stR.log ++ [(stR.tick, ab.1, ab.2)] }
          else stR
        | .visaErr :: rest =>
          { st1 with oracle := rest, trace := st1.trace ++ [Ev.readErr] }
        | .fatalErr :: rest =>
          { st1 with oracle := rest, trace := st1.trace ++ [Ev.readErr] }
      run_loop f { st2 with trace := st2.trace ++ [Ev.sleepEv], tick := st2.tick + 1 }

/-! Embedding of format_si_unit (source lines 34-60).  The source computes
int(math.floor(math.log10(abs(value)))), rounds it down to a multiple of
three with the Python modulo, clamps to the prefix-table range, scales and
renders with the percent .6g format.  The floor of the base-10 logarithm
is realised on exact rationals through digit counts, justified below by
the power sandwich theorem; the .6g rendering is realised exactly on
rationals with round-half-to-even. -/

/-- Number of decimal digits of n (1 for n = 0), by fuel recursion so the
kernel can evaluate it; the fuel only has to dominate the digit count. -/
def countDigits : ℕ → ℕ → ℕ
  | 0, _ => 1
  | f + 1, n => if n < 10 then 1 else countDigits f (n / 10) + 1

/-- Number of decimal digits of n. -/
def natDigits (n : ℕ) : ℕ := countDigits n n

/-- Floor of the base-10 logarithm of the absolute value of a nonzero
rational, computed from the digit counts of numerator and denominator. -/
def floorLog10 (q : ℚ) : ℤ :=
  let a := |q|
  let n := a.num.toNat
  let d := a.den
  let e : ℤ := (natDigits n : ℤ) - (natDigits d : ℤ)
  if qpow10 e ≤ a then e else e - 1

/-- Kernel-reducible floor of a rational (the library floor goes through
the irreducible division). -/
def ratFloor (q : ℚ) : ℤ := q.num / (q.den : ℤ)

/-- Round to the nearest integer, ties to even, as the C and Python
float-to-string machinery does. -/
def roundHalfEven (x : ℚ) : ℤ :=
  let f := ratFloor x
  let r := qSub x ((f : ℤ) : ℚ)
  if r < mkRat 1 2 then f
  else if mkRat 1 2 < r then f + 1
  else if f % 2 = 0 then f else f + 1

/-- Decimal digit characters of n, most significant first. -/
def natDigitChars : ℕ → ℕ → List Char → List Char
  | 0, _, acc => acc
  | f + 1, n, acc =>
    let c := Char.ofNat (48 + n % 10)
    if n < 10 then c :: acc else natDigitChars f (n / 10) (c :: acc)

/-- Decimal representation of n. -/
def natChars (n : ℕ) : List Char := natDigitChars (n + 1) n []

/-- Drop trailing zero characters. -/
def stripZeros (ds : List Char) : List Char :=
  (ds.reverse.dropWhile (fun c => c = '0')).reverse

/-- Fixed-point rendering of the six significant digits ds with decimal
exponent e (value = 0.ds * 10 ^ (e + 1)), trailing zeros stripped. -/
def fixedChars (ds : List Char) (e : ℤ) : List Char :=
  if 0 ≤ e then
    let k := e.toNat + 1
    let ipart := ds.take k
    let fpart := stripZeros (ds.drop k)
    if fpart.isEmpty then ipart else ipart ++ '.' :: fpart
  else
    '0' :: '.' :: (List.replicate (-e - 1).toNat '0' ++ stripZeros ds)

/-- Scientific rendering dEsxx used by percent g outside the fixed
range. -/
def sciChars (ds : List Char) (e : ℤ) : List Char :=
  let mant := match ds with
    | [] => ['0']
    | d :: rest =>
      let frac := stripZeros rest
      if frac.isEmpty then [d] else d :: '.' :: frac
  let ea := e.natAbs
  let edigits := natChars ea
  let epad := if ea < 10 then '0' :: edigits else edigits
  mant ++ 'e' :: (if e < 0 then '-' else '+') :: epad

/-- The Python format specifier percent .6g on an exact rational: six
significant digits rounded half-to-even, trailing zeros stripped,
scientific notation when the decimal exponent leaves [-4, 5]. -/
def fmtG6 (x : ℚ) : List Char :=
  if x = 0 then ['0']
  else
    let sgn : List Char := if x < 0 then ['-'] else []
    let a := |x|
    let e0 := floorLog10 a
    let m0 := roundHalfEven (qMul a (qpow10 (5 - e0)))
    let m := if m0 = 10 ^ 6 then (10 ^ 5 : ℤ) else m0
    let e := if m0 = 10 ^ 6 then e0 + 1 else e0
    let ds := natChars m.toNat
    sgn ++ (if -4 ≤ e ∧ e < 6 then fixedChars ds e else sciChars ds e)

/-- The SI decimal-prefix table of the source. -/
def siTable : List (ℤ × String) :=
  [(-9, "n"), (-6, "μ"), (-3, "m"), (0, ""), (3, "k"), (6, "M"), (9, "G")]

/-- Table lookup; the clamped exponent is always a key. -/
def siUnitOf (e : ℤ) : String :=
  match siTable.find? (fun p => p.1 = e) with
  | some p => p.2
  | none => ""

/-- format_si_unit: Overload, None and nan render as the Overload
literal; an infinite value reaches int(math.floor(math.log10(inf))),
which raises OverflowError in Python; otherwise the exponent is the floor
of log10 of the magnitude, rounded down to a multiple of three, clamped
to [-9, 9], and the scaled value is rendered as percent .6g followed by
the prefix and the unit. -/
def format_si_unit (value : PyVal) (unit : String) : Except PyErr String :=
  match value with
  | .overload => .ok "Overload"
  | .noneV => .ok "Overload"
  | .float f =>
    if f = .nan then .ok "Overload"
    else
      match f with
      | .num q =>
        let exponent : ℤ :=
          if q = 0 then 0
          else
            let e := floorLog10 q
            e - e % 3
        let exponent := max (min exponent 9) (-9)
        let scaled := qDiv q (qpow10 exponent)
        .ok (String.mk (fmtG6 scaled) ++ " " ++ siUnitOf exponent ++ unit)
      | _ => .error .overflowError

/-! Embedding of the GraphDisplayPage buffer and recording state
(update_graph source lines 1074-1237, toggle_recording 1240-1248,
save_recorded_data 1250-1279, reset_graph 1281-1297).  Plot and widget
calls are presentation effects with no influence on the buffers and are
omitted; the value-label block is kept because it can raise and thereby
skip the recording block. -/

/-- The buffer-relevant state of a GraphDisplayPage. -/
structure GraphState where
  jig_mode : Bool
  ach_desc : String
  bch_desc : String
  ach_unit : String
  bch_unit : String
  calculated_value_desc : String
  calculated_unit : String
  time_input : String
  time_data : List PyFloat
  ach_data : List PyVal
  bch_data : List PyVal
  calculated_data : List PyFloat
  recording : Bool
  recorded_data : List (List PyVal)
  deriving DecidableEq, Repr

/-- Python list indexing, IndexError out of range. -/
def pyIndex (l : List α) (i : ℕ) : Except PyErr α :=
  match l.get? i with
  | some x => .ok x
  | none => .error .indexError

/-- A Python list comprehension [l[i] for i in indices]. -/
def listIdxMap (l : List α) (indices : List ℕ) : Except PyErr (List α) :=
  indices.mapM (pyIndex l)

/-- Python min over a nonempty float list (first element wins ties). -/
def pyMinList (l : List PyFloat) : PyFloat :=
  match l with
  | [] => .nan
  | x :: rest => rest.foldl (fun m t => if pyLtF t m then t else m) x

/-- Python max over a nonempty float list. -/
def pyMaxList (l : List PyFloat) : PyFloat :=
  match l with
  | [] => .nan
  | x :: rest => rest.foldl (fun m t => if pyLtF m t then t else m) x

/-- Truthiness of an optional list argument (None and the empty list are
falsy). -/
def truthyList : Option (List α) → Bool
  | some l => !l.isEmpty
  | none => false

/-- The value-label block of update_graph, which renders the latest value
(the rendered strings are discarded here, but a non-float channel value or
an infinite magnitude can raise and abort the method before the recording
block). -/
def updateLabels (st : GraphState) (achValues : List PyVal)
    (bchValues : Option (List PyVal)) (calculatedValues : Option (List PyFloat))
    (jigCalc : Bool) : Except PyErr Unit := do
  if jigCalc then
    let latest := (calculatedValues.getD []).getLastD .inf
    if latest = .nan || pyIsInf latest then pure ()
    else if st.calculated_unit ≠ "" then do
      let _ ← format_si_unit (.float latest) st.calculated_unit
      pure ()
    else pure ()
  else do
    if !achValues.isEmpty then do
      let latest := achValues.getLastD .noneV
      let showOverload ←
        if latest = .overload then pure true else pyIsnan latest
      if showOverload then pure ()
      else do
        let _ ← format_si_unit latest st.ach_unit
        pure ()
    if st.bch_desc ≠ "" && truthyList bchValues then do
      let latest := (bchValues.getD []).getLastD .noneV
      let showOverload ←
        if latest = .overload then pure true else pyIsnan latest
      if showOverload then pure ()
      else do
        let _ ← format_si_unit latest st.bch_unit
        pure ()

/-- GraphDisplayPage.update_graph: extend time_data; in jig mode append
the non-inf calculated values (the reassigned local time_values keeps only
their timestamps), otherwise append the raw channel lists; parse the span
from the time input (defaulting to 10 on a ValueError); window the
retained lists by timestamp, re-indexing the already reassigned lists with
the same indices, as the source does; render the value labels; finally,
while recording, append the rows of the current batch. -/
def update_graph (st : GraphState) (achValues : List PyVal)
    (bchValues : Option (List PyVal)) (timeValues : List PyFloat)
    (calculatedValues : Option (List PyFloat)) : Except PyErr GraphState := do
  let st := { st with time_data := st.time_data ++ timeValues }
  if st.time_data.isEmpty then return st
  let jigCalc := st.jig_mode && truthyList calculatedValues
  let (st, timeValues) :=
    if jigCalc then
      let pairs := (timeValues.zip (calculatedValues.getD [])).filter
        (fun tc => !pyIsInf tc.2)
      ({ st with calculated_data := st.calculated_data ++ pairs.map Prod.snd },
        pairs.map Prod.fst)
    else
      let st := { st with ach_data := st.ach_data ++ achValues }
      let st :=
        if st.bch_desc ≠ "" && truthyList bchValues then
          { st with bch_data := st.bch_data ++ bchValues.getD [] }
        else st
      (st, timeValues)
  let maxDisplayTime : PyFloat :=
    match pyFloatOfChars st.time_input.data with
    | some v => v
    | none => .num 10
  let tLast ← match st.time_data.getLast? with
    | some t => pure t
    | none => throw .indexError
  let minT : PyFloat :=
    if pyLtF (.num 0) maxDisplayTime then pyMaxF (.num 0) (pySubF tLast maxDisplayTime)
    else pyMinList st.time_data
  let maxT : PyFloat :=
    if pyLtF (.num 0) maxDisplayTime then tLast else pyMaxList st.time_data
  let indices := ((st.time_data.enum.filter
    (fun p => pyLeF minT p.2 && pyLeF p.2 maxT)).map Prod.fst)
  let st ←
    if jigCalc then do
      let timeData2 ← listIdxMap st.time_data indices
      let calcData2 ← listIdxMap st.calculated_data indices
      let st := { st with time_data := timeData2, calculated_data := calcData2 }
      let _timeLocal ← listIdxMap st.time_data indices
      let _calcLocal ← listIdxMap st.calculated_data indices
      pure st
    else do
      let timeData2 ← listIdxMap st.time_data indices
      let achData2 ← listIdxMap st.ach_data indices
      let st := { st with time_data := timeData2, ach_data := achData2 }
      let st ←
        if st.bch_desc ≠ "" && truthyList bchValues then do
          let bchData2 ← listIdxMap st.bch_data indices
          pure { st with bch_data := bchData2 }
        else pure st
      let _timeLocal ← listIdxMap st.time_data indices
      let _achLocal ← listIdxMap st.ach_data indices
      let _bchLocal ←
        if st.bch_desc ≠ "" && truthyList bchValues then listIdxMap st.bch_data indices
        else pure []
      pure st
  updateLabels st achValues bchValues calculatedValues jigCalc
  if st.recording then
    if jigCalc then
      let rows := ((timeValues.zip (calculatedValues.getD [])).filter
        (fun tc => !pyIsInf tc.2)).map
        (fun tc => [PyVal.float tc.1, PyVal.float tc.2])
      return { st with recorded_data := st.recorded_data ++ rows }
    else
      let combinedB :=
        if truthyList bchValues then bchValues.getD []
        else List.replicate achValues.length PyVal.noneV
      let rows := (timeValues.zip (achValues.zip combinedB)).map
        (fun x =>
          if st.bch_desc ≠ "" then [PyVal.float x.1, x.2.fst, x.2.snd]
          else [PyVal.float x.1, x.2.fst])
      return { st with recorded_data := st.recorded_data ++ rows }
  else
    return st

/-- Outcome of a recording stop or start. -/
inductive RecOutcome where
  | started
  | noData
  | cancelled
  | saved (path : String) (header : List String) (rows : List (List PyVal))
  deriving DecidableEq, Repr

/-- The header row written by save_recorded_data: one column name per
retained channel or derived quantity, with its unit in parentheses. -/
def csv_header (st : GraphState) : List String :=
  if st.jig_mode then
    ["時間 (秒)", st.calculated_value_desc ++ " (" ++ st.calculated_unit ++ ")"]
  else if st.bch_desc ≠ "" then
    ["時間 (秒)", st.ach_desc ++ " (" ++ st.ach_unit ++ ")",
      st.bch_desc ++ " (" ++ st.bch_unit ++ ")"]
  else
    ["時間 (秒)", st.ach_desc ++ " (" ++ st.ach_unit ++ ")"]

/-- GraphDisplayPage.save_recorded_data: with an empty capture it reports
that there is nothing to save and returns; with the file dialog cancelled
it does nothing; otherwise it writes the header and the captured rows.
It never clears recorded_data. -/
def save_recorded_data (st : GraphState) (dialog : Option String) :
    GraphState × RecOutcome :=
  if st.recorded_data = [] then (st, .noData)
  else
    match dialog with
    | none => (st, .cancelled)
    | some path => (st, .saved path (csv_header st) st.recorded_data)

/-- GraphDisplayPage.toggle_recording: starting sets the flag and clears
the capture; stopping clears the flag and calls save_recorded_data.  The
file-dialog outcome is passed as an oracle argument. -/
def toggle_recording (st : GraphState) (dialog : Option String) :
    GraphState × RecOutcome :=
  if !st.recording then
    ({ st with recording := true, recorded_data := [] }, .started)
  else
    save_recorded_data { st with recording := false } dialog

/-- GraphDisplayPage.set_measurement_mode_descriptions restricted to its
state effects (it rebuilds axes and reads the time input, neither of which
touches the buffers). -/
def set_measurement_mode_descriptions (st : GraphState) (achDesc bchDesc : String)
    (jigMode : Bool) (calcDesc calcUnit : String) : GraphState :=
  { st with
    ach_desc := achDesc
    bch_desc := bchDesc
    jig_mode := jigMode
    calculated_value_desc := calcDesc
    calculated_unit := calcUnit }

/-- GraphDisplayPage.reset_graph: reset the time input, clear the four
display buffers, rebuild the axes, and finally clear recorded_data
unconditionally; the recording flag is not touched. -/
def reset_graph (st : GraphState) : GraphState :=
  let st := { st with time_input := "10" }
  let st := { st with
    ach_data := []
    bch_data := []
    calculated_data := []
    time_data := [] }
  let st := set_measurement_mode_descriptions st st.ach_desc st.bch_desc
    st.jig_mode st.calculated_value_desc st.calculated_unit
  { st with recorded_data := [] }

/-! Spec-side definitions and theorems. -/

/-- The first two recognised readings, channel B absent when there is no
second one. -/
def takeTwo : List PyVal → PyVal × PyVal
  | [] => (.noneV, .noneV)
  | [a] => (a, .noneV)
  | a :: b :: _ => (a, b)

/-- Modelled on the parsing narration of the spec: one comma-separated
part reduces to a reading when, after stripping, it is non-empty, splits
on whitespace into at least a marker-bearing first token and a value
token, and the first token ends in the measurement marker (value parsed as
a float, negative zero normalised, the part discarded when the parse
fails) or in the overload marker. -/
def parsePartSpec (rawPart : List Char) : Option PyVal :=
  let part := pyStrip rawPart
  if part.isEmpty then none
  else
    match splitWs part with
    | pfx :: valueStr :: _ =>
      if endsWithChar pfx '_' then
        match pyFloatOfChars valueStr with
        | some v => some (.float (normNegZero v))
        | none => none
      else if endsWithChar pfx 'O' then some .overload
      else none
    | _ => none

/-- Modelled on the spec narration: the list of recognised readings of a
response line, in order. -/
def recognizedReadings (line : String) : List PyVal :=
  (splitOnChar ',' line.data).filterMap parsePartSpec

/-- Modelled on the spec narration: channel A is the first recognised
reading, channel B the second, absent when missing. -/
def specChannels (line : String) : PyVal × PyVal :=
  takeTwo (recognizedReadings line)

theorem parsePartSpec_eq : parsePartSpec = parsePart := rfl

theorem parsePart_ne_noneV {p : List Char} {v : PyVal}
    (h : parsePart p = some v) : v ≠ PyVal.noneV := by
  unfold parsePart at h
  dsimp only at h
  split at h
  · exact absurd h (by simp)
  · split at h
    · split at h
      · rcases hf : pyFloatOfChars _ with _ | w
        · rw [hf] at h
          exact absurd h (by simp)
        · rw [hf] at h
          simp only [Option.some_inj] at h
          subst h
          intro hc
          cases hc
      · split at h
        · simp only [Option.some_inj] at h
          subst h
          intro hc
          cases hc
        · exact absurd h (by simp)
    · exact absurd h (by simp)

theorem foldl_readStep_two (parts : List (List Char)) (a b : PyVal)
    (ha : a ≠ .noneV) (hb : b ≠ .noneV) :
    parts.foldl readStep (a, b) = (a, b) := by
  induction parts with
  | nil => rfl
  | cons p ps ih =>
    rw [List.foldl_cons]
    have hstep : readStep (a, b) p = (a, b) := by
      unfold readStep
      cases hp : parsePart p with
      | none => rfl
      | some v => simp [assignReading, ha, hb]
    rw [hstep, ih]

theorem foldl_readStep_one (parts : List (List Char)) (a : PyVal)
    (ha : a ≠ .noneV) :
    parts.foldl readStep (a, .noneV) =
      (a, ((parts.filterMap parsePart).head?.getD .noneV)) := by
  induction parts with
  | nil => rfl
  | cons p ps ih =>
    rw [List.foldl_cons, List.filterMap_cons]
    cases hp : parsePart p with
    | none =>
      have hstep : readStep (a, .noneV) p = (a, .noneV) := by
        unfold readStep
        rw [hp]
      rw [hstep, ih]
    | some v =>
      have hstep : readStep (a, .noneV) p = (a, v) := by
        unfold readStep
        rw [hp]
        simp [assignReading, ha]
      rw [hstep, foldl_readStep_two ps a v ha (parsePart_ne_noneV hp)]
      simp

theorem foldl_readStep_start (parts : List (List Char)) :
    parts.foldl readStep (.noneV, .noneV) = takeTwo (parts.filterMap parsePart) := by
  induction parts with
  | nil => rfl
  | cons p ps ih =>
    rw [List.foldl_cons, List.filterMap_cons]
    cases hp : parsePart p with
    | none =>
      have hstep : readStep (PyVal.noneV, PyVal.noneV) p = (.noneV, .noneV) := by
        unfold readStep
        rw [hp]
      rw [hstep, ih]
    | some v =>
      have hstep : readStep (PyVal.noneV, PyVal.noneV) p = (v, .noneV) := by
        unfold readStep
        rw [hp]
        simp [assignReading]
      rw [hstep, foldl_readStep_one ps v (parsePart_ne_noneV hp)]
      cases hrest : ps.filterMap parsePart with
      | nil => rfl
      | cons w ws => rfl

theorem mem_filterMap_parsePart_ne_noneV {parts : List (List Char)} {v : PyVal}
    (h : v ∈ parts.filterMap parsePart) : v ≠ PyVal.noneV := by
  rcases List.mem_filterMap.1 h with ⟨p, _, hp⟩
  exact parsePart_ne_noneV hp

/-- C2.  For every instrument response line, the parsing loop of
read_measurement computes exactly the channels described by the spec:
split on commas, reduce each part by the per-part rule, let the first
recognised reading be channel A and the second channel B, with channel B
absent when no second reading exists. -/
theorem c2_theorem (line : String) : read_measurement line = specChannels line := by
  unfold read_measurement specChannels recognizedReadings
  rw [foldl_readStep_start]
  rw [parsePartSpec_eq]
  cases hrec : (splitOnChar ',' line.data).filterMap parsePart with
  | nil => rfl
  | cons a rest =>
    have ha : a ≠ PyVal.noneV :=
      mem_filterMap_parsePart_ne_noneV (hrec ▸ List.mem_cons_self a rest)
    cases rest with
    | nil => simp [takeTwo, ha]
    | cons b rest2 => simp [takeTwo, ha]

theorem parsePartE_eq (p : List Char) : parsePartE p = .ok (parsePart p) := by
  unfold parsePartE parsePart floatOfCharsE
  dsimp only
  split
  · rfl
  · split
    · split
      · cases pyFloatOfChars _ with
        | none => rfl
        | some w => rfl
      · split
        · rfl
        · rfl
    · rfl

theorem readStepE_eq (ab : PyVal × PyVal) (p : List Char) :
    readStepE ab p = .ok (readStep ab p) := by
  unfold readStepE readStep
  rw [parsePartE_eq]
  cases parsePart p with
  | none => rfl
  | some v => rfl

theorem foldlM_readStepE_eq (parts : List (List Char)) (ab : PyVal × PyVal) :
    parts.foldlM readStepE ab = .ok (parts.foldl readStep ab) := by
  induction parts generalizing ab with
  | nil => rfl
  | cons p ps ih =>
    rw [List.foldlM_cons, List.foldl_cons, readStepE_eq]
    exact ih (readStep ab p)

/-- The sample-append step of MeasurementClass.run: a parsed pair with no
channel A appends nothing; otherwise the sample (timestamp, channel A,
channel B) is appended, channel B possibly absent. -/
def run_iteration (log : List (ℚ × PyVal × PyVal)) (t : ℚ) (line : String) :
    List (ℚ × PyVal × PyVal) :=
  let ab := read_measurement line
  if ab.1 = .noneV then log else log ++ [(t, ab.1, ab.2)]

/-- C3.  Parsing never raises on any response line (the exception-aware
parser always returns the pure result), and the sampler iteration appends
no sample when channel A was not recognised, while a missing channel B
alone still yields an appended sample with channel B absent. -/
theorem c3_theorem (line : String) (log : List (ℚ × PyVal × PyVal)) (t : ℚ) :
    read_measurementE line = .ok (read_measurement line) ∧
    ((read_measurement line).1 = .noneV → run_iteration log t line = log) ∧
    ((read_measurement line).1 ≠ .noneV →
      run_iteration log t line =
        log ++ [(t, (read_measurement line).1, (read_measurement line).2)]) := by
  refine ⟨?_, ?_, ?_⟩
  · unfold read_measurementE read_measurement
    rw [foldlM_readStepE_eq]
    simp only [Bind.bind, Except.bind]
    split
    · rfl
    · rfl
  · intro h
    unfold run_iteration
    simp [h]
  · intro h
    unfold run_iteration
    simp [h]

/-- Witness for C3 at a concrete malformed-then-valid line: channel A is
recognised, so the sample is appended with channel B absent. -/
theorem c3_witness :
    ((read_measurement "junk, A_ 1.0").1 ≠ PyVal.noneV) ∧
    run_iteration [] 0 "junk, A_ 1.0" =
      [((0 : ℚ), (read_measurement "junk, A_ 1.0").1,
        (read_measurement "junk, A_ 1.0").2)] :=
  ⟨by decide, (c3_theorem ("junk, A_ 1.0") [] 0).2.2 (by decide)⟩

theorem derived_update_ratioAV (a b : PyVal) :
    derived_value_update ratioAV a b = calcRatio a b := by
  unfold derived_value_update
  rw [if_pos rfl]

theorem derived_update_ratioBV (a b : PyVal) :
    derived_value_update ratioBV a b = calcRatio a b := by
  unfold derived_value_update
  rw [if_neg (by decide), if_pos rfl]

theorem derived_update_hfe (a b : PyVal) :
    derived_value_update hfeMode a b = calcGain a b := by
  unfold derived_value_update
  rw [if_neg (by decide), if_neg (by decide), if_pos rfl]

theorem derived_update_powerSmall (a b : PyVal) :
    derived_value_update powerSmall a b = calcProduct a b := by
  unfold derived_value_update
  rw [if_neg (by decide), if_neg (by decide), if_neg (by decide), if_pos rfl]

theorem derived_update_powerLarge (a b : PyVal) :
    derived_value_update powerLarge a b = calcProduct a b := by
  unfold derived_value_update
  rw [if_neg (by decide), if_neg (by decide), if_neg (by decide),
    if_neg (by decide), if_pos rfl]

/-- C1 counterexample.  The claim asserts that ratio reductions are
Invalid exactly when channel A is zero or a channel is non-finite or
Overload, and that the reduction never raises.  At channel A = 1 with
channel B the Overload sentinel the code raises TypeError instead of
producing Invalid; at channel B infinite the code returns the valid value
0 instead of Invalid; and the load_data_from_list copy raises
ZeroDivisionError at channel B = 0. -/
theorem c1_counterexample :
    derived_value_update ratioAV (.float (.num 1)) .overload = .error .typeError ∧
    derived_value_update ratioAV (.float (.num 1)) (.float .inf) = .ok (.num 0) ∧
    derived_value_load ratioAV (.float (.num 1)) (.float (.num 0)) =
      .error .zeroDivisionError := by
  refine ⟨?_, ?_, ?_⟩ <;> decide

/-- C1 as amended.  The reduction of update_from_shared_memory behaves as
follows.  Ratio (both four-terminal modes): with both channels finite
rationals and channel A nonzero, the result is abs(A / B), except that
B = 0 is caught and yields the Invalid sentinel; A = 0 or a NaN channel
yields Invalid; an Overload or absent channel A raises TypeError, as does
an Overload or absent channel B once channel A passes its guards;
infinite operands flow through IEEE arithmetic (so channel B infinite
gives the valid value 0).  Gain (hFE) divides B / A under the same guard.
Product: TypeError on an Overload or absent channel, Invalid on NaN,
otherwise the product.  An unrecognised mode name is always Invalid.  The
two concrete table rows of the claim hold: Ratio(0, 5) is Invalid and
Ratio(10, 2) is 5. -/
theorem c1_theorem :
    (∀ p q : ℚ, p ≠ 0 →
      derived_value_update ratioAV (.float (.num p)) (.float (.num q)) =
        .ok (if q = 0 then .inf else .num |p / q|)) ∧
    (∀ b, derived_value_update ratioAV (.float (.num 0)) b = .ok .inf) ∧
    (∀ b, derived_value_update ratioAV (.float .nan) b = .ok .inf) ∧
    (∀ b, derived_value_update ratioAV .overload b = .error .typeError) ∧
    (∀ b, derived_value_update ratioAV .noneV b = .error .typeError) ∧
    (∀ x : PyFloat, x ≠ .nan → pyNeZero (.float x) = true →
      derived_value_update ratioAV (.float x) .overload = .error .typeError ∧
      derived_value_update ratioAV (.float x) .noneV = .error .typeError ∧
      derived_value_update ratioAV (.float x) (.float .nan) = .ok .inf) ∧
    (∀ a b, derived_value_update ratioBV a b = derived_value_update ratioAV a b) ∧
    (∀ p q : ℚ, p ≠ 0 →
      derived_value_update hfeMode (.float (.num p)) (.float (.num q)) =
        .ok (.num (q / p))) ∧
    (∀ b, derived_value_update powerSmall .overload b = .error .typeError) ∧
    (∀ p : ℚ,
      derived_value_update powerSmall (.float (.num p)) .overload =
        .error .typeError ∧
      derived_value_update powerSmall (.float (.num p)) .noneV =
        .error .typeError) ∧
    (∀ p q : ℚ,
      derived_value_update powerLarge (.float (.num p)) (.float (.num q)) =
        .ok (.num (p * q))) ∧
    (∀ m a b, m ≠ ratioAV → m ≠ ratioBV → m ≠ hfeMode → m ≠ powerSmall →
      m ≠ powerLarge → derived_value_update m a b = .ok .inf) ∧
    derived_value_update ratioAV (.float (.num 0)) (.float (.num 5)) = .ok .inf ∧
    derived_value_update ratioAV (.float (.num 10)) (.float (.num 2)) =
      .ok (.num 5) := by
  refine ⟨?_, ?_, ?_, ?_, ?_, ?_, ?_, ?_, ?_, ?_, ?_, ?_, ?_, ?_⟩
  · intro p q hp
    rw [derived_update_ratioAV]
    by_cases hq : q = 0
    · subst hq
      simp [calcRatio, pyNeZero, pyIsnan, pyDivVal, pyDivF, hp]
    · simp [calcRatio, pyNeZero, pyIsnan, pyDivVal, pyDivF, pyAbsF, hp, hq,
        qDiv_eq]
  · intro b
    rw [derived_update_ratioAV]
    simp [calcRatio, pyNeZero]
  · intro b
    rw [derived_update_ratioAV]
    simp [calcRatio, pyNeZero, pyIsnan]
  · intro b
    rw [derived_update_ratioAV]
    simp [calcRatio, pyNeZero, pyIsnan]
  · intro b
    rw [derived_update_ratioAV]
    simp [calcRatio, pyNeZero, pyIsnan]
  · intro x hx hne
    refine ⟨?_, ?_, ?_⟩ <;>
      · rw [derived_update_ratioAV]
        simp [calcRatio, pyIsnan, pyDivVal, hx, hne]
  · intro a b
    rw [derived_update_ratioAV, derived_update_ratioBV]
  · intro p q hp
    rw [derived_update_hfe]
    simp [calcGain, pyNeZero, pyIsnan, pyDivVal, pyDivF, hp, qDiv_eq]
  · intro b
    rw [derived_update_powerSmall]
    simp [calcProduct, pyIsnan]
  · intro p
    constructor <;>
      · rw [derived_update_powerSmall]
        simp [calcProduct, pyIsnan, pyMulVal]
  · intro p q
    rw [derived_update_powerLarge]
    simp [calcProduct, pyIsnan, pyMulVal, pyMulF, qMul_eq]
  · intro m a b h1 h2 h3 h4 h5
    unfold derived_value_update
    rw [if_neg h1, if_neg h2, if_neg h3, if_neg h4, if_neg h5]
  · decide
  · decide

/-- Witness for C1 at the concrete table row Ratio(10, 2). -/
theorem c1_witness :
    ((10 : ℚ) ≠ 0) ∧
    derived_value_update ratioAV (.float (.num 10)) (.float (.num 2)) =
      .ok (if (2 : ℚ) = 0 then .inf else .num |(10 : ℚ) / 2|) :=
  ⟨by norm_num, c1_theorem.1 10 2 (by norm_num)⟩

theorem stop_mem_cons {c : String} (h : c ≠ "STOP") {rest : List String} :
    ("STOP" ∈ rest) ↔ ("STOP" ∈ c :: rest) := by
  rw [List.mem_cons]
  constructor
  · exact Or.inr
  · rintro (h1 | h1)
    · exact absurd h1.symm h
    · exact h1

/-- C8 counterexample.  A dequeued TRIGGER request is not a single
fire-and-forget write of the trigger instruction: the source routes it
through send_command, so the transaction trace is the full Configure
handshake (clear status, clear, settle, write, settle, operation-complete
query, completion read) around the trigger write. -/
theorem c8_counterexample :
    (check_commands ["TRIGGER"] [ReadRes.line "1"]).fst =
      [Ev.write "*CLS", Ev.clearBuf, Ev.sleepEv, Ev.write "*TRG", Ev.sleepEv,
        Ev.write "*OPC?", Ev.readLine "1"] ∧
    (check_commands ["TRIGGER"] [ReadRes.line "1"]).fst ≠ [Ev.write "*TRG"] := by
  refine ⟨?_, ?_⟩ <;> decide

/-- C8 as amended.  A dequeued TRIGGER request performs the full
send_command completion handshake with the trigger instruction as the
command text (not a bare write), and the sampler termination flag is set
by a dequeue pass exactly when the queue contains STOP. -/
theorem c8_theorem :
    (∀ oracle,
      (check_commands ["TRIGGER"] oracle).fst = (send_command "*TRG" oracle).fst ∧
      (check_commands ["TRIGGER"] oracle).snd.fst =
        (send_command "*TRG" oracle).snd.fst) ∧
    (∀ q oracle, (check_commands q oracle).snd.snd = true ↔ "STOP" ∈ q) := by
  constructor
  · intro oracle
    unfold check_commands
    rw [if_neg (by decide), if_neg (by decide), if_pos rfl]
    constructor
    · show (send_command "*TRG" oracle).fst ++ [] = (send_command "*TRG" oracle).fst
      exact List.append_nil _
    · rfl
  · intro q
    induction q with
    | nil =>
      intro oracle
      simp [check_commands]
    | cons c rest ih =>
      intro oracle
      by_cases hstop : c = "STOP"
      · subst hstop
        unfold check_commands
        rw [if_pos rfl]
        simp
      · unfold check_commands
        rw [if_neg hstop]
        by_cases hsend : startsWithChars c.data "SEND ".data
        · rw [if_pos hsend]
          show (check_commands rest
            (send_command (String.mk (c.data.drop 5)) oracle).snd.fst).snd.snd =
              true ↔ "STOP" ∈ c :: rest
          rw [ih]
          exact stop_mem_cons hstop
        · rw [if_neg hsend]
          by_cases htr : c = "TRIGGER"
          · rw [if_pos htr]
            show (check_commands rest
              (send_command "*TRG" oracle).snd.fst).snd.snd =
                true ↔ "STOP" ∈ c :: rest
            rw [ih]
            exact stop_mem_cons hstop
          · rw [if_neg htr]
            rw [ih]
            exact stop_mem_cons hstop

/-- Witness for C8: a queue holding STOP sets the termination flag. -/
theorem c8_witness : (check_commands ["STOP"] []).snd.snd = true :=
  (c8_theorem.2 ["STOP"] []).mpr (by decide)

/-- Initial sampler state for the command sequence of the claim, with an
instrument oracle that acknowledges both handshakes and then returns one
measurement line. -/
def c9init : SamplerState :=
  { queue := ["SEND DSP1,F3", "TRIGGER", "STOP"]
    oracle := [ReadRes.line "1", ReadRes.line "1", ReadRes.line "A_ 1.0"]
    stopFlag := false
    log := []
    trace := []
    tick := 0 }

/-- C9 counterexample.  Enqueuing [SEND DSP1,F3, TRIGGER, STOP] does not
produce exactly one Configure handshake, and a sample is appended after
Stop takes effect: the same iteration that dequeues STOP still performs a
read and appends its sample, and the trigger dequeue performs a second
complete handshake (two operation-complete queries in the trace). -/
theorem c9_counterexample :
    (run_loop 3 c9init).log = [(0, .float (.num 1), .noneV)] ∧
    (run_loop 3 c9init).stopFlag = true ∧
    ((run_loop 3 c9init).trace.count (Ev.write "*OPC?")) = 2 := by
  refine ⟨?_, ?_, ?_⟩ <;> decide

/-- C9 as amended.  The enqueue produces, in order, one Configure
handshake for DSP1,F3, one handshake-wrapped trigger write, and the
termination flag; the iteration that drained the queue still performs one
read and appends one final sample before the loop exits on the next
iteration. -/
theorem c9_theorem :
    run_loop 3 c9init =
      { queue := []
        oracle := []
        stopFlag := true
        log := [(0, .float (.num 1), .noneV)]
        trace := [Ev.write "*CLS", Ev.clearBuf, Ev.sleepEv, Ev.write "DSP1,F3",
          Ev.sleepEv, Ev.write "*OPC?", Ev.readLine "1", Ev.write "*CLS",
          Ev.clearBuf, Ev.sleepEv, Ev.write "*TRG", Ev.sleepEv, Ev.write "*OPC?",
          Ev.readLine "1", Ev.readLine "A_ 1.0", Ev.sleepEv]
        tick := 1 } := by
  decide

/-- A single-channel graph page in its initial configuration (direct
display, no channel B, default ten-second span). -/
def baseGS : GraphState :=
  { jig_mode := false
    ach_desc := "直流電圧"
    bch_desc := ""
    ach_unit := "V"
    bch_unit := ""
    calculated_value_desc := ""
    calculated_unit := ""
    time_input := "10"
    time_data := []
    ach_data := []
    bch_data := []
    calculated_data := []
    recording := false
    recorded_data := [] }

/-- The same page configured for a jig mode. -/
def jigGS : GraphState :=
  { baseGS with
    jig_mode := true
    calculated_value_desc := "抵抗値"
    calculated_unit := "Ω" }

/-- C4.  The incremental WindowBuffer maintenance does not equal the
from-scratch time filter: a single jig-mode batch holding one Invalid
(inf) entry appends the timestamps of all entries to time_data but only
the valid values to calculated_data, and the window filter then indexes
calculated_data past its end, raising IndexError instead of retaining the
window contents. -/
theorem c4_theorem :
    update_graph jigGS [] none [.num 0, .num 1] (some [.inf, .num 5]) =
      .error .indexError := by
  decide

/-- Recording page used by the C5 run. -/
def c5init : GraphState := { baseGS with recording := true }

/-- C5.  Recording is not independent of the window span: with the default
ten-second span, feeding two accepted entries at t = 0 and t = 11 records
the first row, but the second update evicts the first entry and the stale
re-indexing raises IndexError before the recording block runs, so only
one of the two accepted entries is ever recorded. -/
theorem c5_theorem :
    (update_graph c5init [.float (.num 1)] none [.num 0] none).map
      GraphState.recorded_data =
      .ok [[PyVal.float (.num 0), PyVal.float (.num 1)]] ∧
    (update_graph c5init [.float (.num 1)] none [.num 0] none).bind
      (fun st => update_graph st [.float (.num 2)] none [.num 11] none) =
      .error .indexError := by
  refine ⟨?_, ?_⟩ <;> decide

/-- A page that has been recording and holds one captured row. -/
def c6state : GraphState :=
  { baseGS with
    recording := true
    recorded_data := [[PyVal.float (.num 0), PyVal.float (.num 1)]] }

/-- C6 counterexample.  Stopping a recording with a captured row and a
confirmed save dialog leaves recorded_data unchanged: the source never
clears the buffer after saving, contradicting the claimed
serialize-then-clear behaviour. -/
theorem c6_counterexample :
    (toggle_recording c6state (some "out.csv")).fst.recorded_data =
      [[PyVal.float (.num 0), PyVal.float (.num 1)]] ∧
    ([[PyVal.float (.num 0), PyVal.float (.num 1)]] : List (List PyVal)) ≠ [] := by
  refine ⟨?_, ?_⟩ <;> decide

/-- C6 as amended.  Stopping a recording with data and a confirmed dialog
serializes the header row (column names with units) and the captured rows
and reports success, but does not clear the buffer; the buffer is cleared
only when the next recording starts.  Stopping with no data reports the
nothing-to-save condition and writes no file. -/
theorem c6_theorem :
    (∀ (st : GraphState) (p : String), st.recording = true →
      st.recorded_data ≠ [] →
      toggle_recording st (some p) =
        ({ st with recording := false }, .saved p (csv_header st) st.recorded_data)) ∧
    (∀ (st : GraphState) (d : Option String), st.recording = true →
      st.recorded_data = [] →
      toggle_recording st d = ({ st with recording := false }, .noData)) ∧
    (∀ (st : GraphState) (d : Option String), st.recording = false →
      toggle_recording st d =
        ({ st with recording := true, recorded_data := [] }, .started)) := by
  refine ⟨?_, ?_, ?_⟩
  · intro st p hrec hdata
    unfold toggle_recording save_recorded_data
    simp [hrec, hdata, csv_header]
  · intro st d hrec hdata
    unfold toggle_recording save_recorded_data
    simp [hrec, hdata]
  · intro st d hrec
    unfold toggle_recording
    simp [hrec]

/-- Witness for C6: stopping the one-row recording state saves the header
and the row and leaves the state with the flag cleared. -/
theorem c6_witness :
    (c6state.recording = true) ∧
    (c6state.recorded_data ≠ []) ∧
    toggle_recording c6state (some "w.csv") =
      ({ c6state with recording := false }, .saved "w.csv" (csv_header c6state)
        c6state.recorded_data) :=
  ⟨by decide, by decide, c6_theorem.1 c6state "w.csv" (by decide) (by decide)⟩

/-- C10.  reset_graph clears the recording capture unconditionally while
leaving the recording flag untouched, so a reset during an active
recording loses the captured rows and a subsequent stop reports the
nothing-to-save condition instead of exporting the pre-reset entries. -/
theorem c10_theorem (st : GraphState) (d : Option String)
    (hrec : st.recording = true) :
    (reset_graph st).recording = true ∧
    (reset_graph st).recorded_data = [] ∧
    (toggle_recording (reset_graph st) d).fst.recording = false ∧
    (toggle_recording (reset_graph st) d).fst.recorded_data = [] ∧
    (toggle_recording (reset_graph st) d).snd = .noData := by
  have hrg : (reset_graph st).recording = true := by
    unfold reset_graph set_measurement_mode_descriptions
    exact hrec
  have hrd : (reset_graph st).recorded_data = [] := by
    unfold reset_graph set_measurement_mode_descriptions
    rfl
  refine ⟨hrg, hrd, ?_, ?_, ?_⟩ <;>
    · unfold toggle_recording save_recorded_data
      simp [hrg, hrd]

/-- Witness for C10 at a concrete recording page. -/
theorem c10_witness :
    (c6state.recording = true) ∧
    ((reset_graph c6state).recording = true ∧
      (reset_graph c6state).recorded_data = [] ∧
      (toggle_recording (reset_graph c6state) (some "w.csv")).fst.recording = false ∧
      (toggle_recording (reset_graph c6state) (some "w.csv")).fst.recorded_data = [] ∧
      (toggle_recording (reset_graph c6state) (some "w.csv")).snd = .noData) :=
  ⟨by decide, c10_theorem c6state (some "w.csv") (by decide)⟩

theorem countDigits_pos (fuel n : ℕ) : 1 ≤ countDigits fuel n := by
  cases fuel with
  | zero => exact le_refl 1
  | succ f =>
    unfold countDigits
    split
    · exact le_refl 1
    · omega

theorem countDigits_spec : ∀ fuel n : ℕ, 1 ≤ n → n ≤ fuel →
    10 ^ (countDigits fuel n - 1) ≤ n ∧ n < 10 ^ countDigits fuel n := by
  intro fuel
  induction fuel with
  | zero =>
    intro n h1 h2
    omega
  | succ f ih =>
    intro n h1 h2
    unfold countDigits
    by_cases h : n < 10
    · rw [if_pos h]
      constructor
      · simpa using h1
      · simpa using h
    · rw [if_neg h]
      have hm1 : 1 ≤ n / 10 := by omega
      have hm2 : n / 10 ≤ f := by omega
      obtain ⟨lo, hi⟩ := ih (n / 10) hm1 hm2
      have hd1 : 1 ≤ countDigits f (n / 10) := countDigits_pos f (n / 10)
      constructor
      · have hstep : 10 ^ countDigits f (n / 10) ≤ 10 * (n / 10) := by
          calc 10 ^ countDigits f (n / 10)
              = 10 * 10 ^ (countDigits f (n / 10) - 1) := by
                rw [← pow_succ']
                congr 1
                omega
            _ ≤ 10 * (n / 10) := Nat.mul_le_mul_left 10 lo
        have hdiv : 10 * (n / 10) ≤ n := by omega
        calc 10 ^ (countDigits f (n / 10) + 1 - 1)
            = 10 ^ countDigits f (n / 10) := by rw [Nat.add_sub_cancel]
          _ ≤ 10 * (n / 10) := hstep
          _ ≤ n := hdiv
      · have hsucc : n / 10 + 1 ≤ 10 ^ countDigits f (n / 10) := hi
        calc n < 10 * (n / 10 + 1) := by omega
          _ ≤ 10 * 10 ^ countDigits f (n / 10) := Nat.mul_le_mul_left 10 hsucc
          _ = 10 ^ (countDigits f (n / 10) + 1) := (pow_succ' 10 _).symm

theorem natDigits_pos (n : ℕ) : 1 ≤ natDigits n := countDigits_pos n n

theorem natDigits_spec (n : ℕ) (h : 1 ≤ n) :
    10 ^ (natDigits n - 1) ≤ n ∧ n < 10 ^ natDigits n :=
  countDigits_spec n n h (le_refl n)

theorem digits_sandwich (a : ℚ) (ha0 : 0 < a) :
    (10 : ℚ) ^ ((natDigits a.num.toNat : ℤ) - (natDigits a.den : ℤ) - 1) < a ∧
    a < (10 : ℚ) ^ ((natDigits a.num.toNat : ℤ) - (natDigits a.den : ℤ) + 1) := by
  have h10 : (10 : ℚ) ≠ 0 := by norm_num
  have hnum : 0 < a.num := Rat.num_pos.2 ha0
  have hnq : ((a.num.toNat : ℤ)) = a.num := Int.toNat_of_nonneg hnum.le
  have hn1 : 1 ≤ a.num.toNat := by omega
  have hd1 : 1 ≤ a.den := a.pos
  obtain ⟨nlo, nhi⟩ := natDigits_spec a.num.toNat hn1
  obtain ⟨dlo, dhi⟩ := natDigits_spec a.den hd1
  have hDn1 : 1 ≤ natDigits a.num.toNat := natDigits_pos _
  have hDd1 : 1 ≤ natDigits a.den := natDigits_pos _
  have hcast : ∀ k : ℕ, ((10 ^ k : ℕ) : ℚ) = (10 : ℚ) ^ (k : ℤ) := by
    intro k
    rw [zpow_natCast]
    push_cast
    rfl
  have hnumQ : ((a.num.toNat : ℚ)) = (a.num : ℚ) := by
    rw [← hnq]
    push_cast
    rfl
  have haq : a = (a.num.toNat : ℚ) / (a.den : ℚ) := by
    rw [hnumQ, Rat.num_div_den a]
  have hden0 : (0 : ℚ) < (a.den : ℚ) := by exact_mod_cast a.pos
  have hnum0 : (0 : ℚ) < (a.num.toNat : ℚ) := by exact_mod_cast hn1
  -- rational versions of the four digit bounds
  have nloQ : (10 : ℚ) ^ ((natDigits a.num.toNat : ℤ) - 1) ≤ (a.num.toNat : ℚ) := by
    have h1 : ((10 ^ (natDigits a.num.toNat - 1) : ℕ) : ℚ) ≤ (a.num.toNat : ℚ) := by
      exact_mod_cast nlo
    rwa [hcast, show (((natDigits a.num.toNat - 1 : ℕ)) : ℤ) =
      (natDigits a.num.toNat : ℤ) - 1 by omega] at h1
  have nhiQ : (a.num.toNat : ℚ) < (10 : ℚ) ^ ((natDigits a.num.toNat : ℤ)) := by
    have h1 : (a.num.toNat : ℚ) < ((10 ^ natDigits a.num.toNat : ℕ) : ℚ) := by
      exact_mod_cast nhi
    rwa [hcast] at h1
  have dloQ : (10 : ℚ) ^ ((natDigits a.den : ℤ) - 1) ≤ (a.den : ℚ) := by
    have h1 : ((10 ^ (natDigits a.den - 1) : ℕ) : ℚ) ≤ (a.den : ℚ) := by
      exact_mod_cast dlo
    rwa [hcast, show (((natDigits a.den - 1 : ℕ)) : ℤ) =
      (natDigits a.den : ℤ) - 1 by omega] at h1
  have dhiQ : (a.den : ℚ) < (10 : ℚ) ^ ((natDigits a.den : ℤ)) := by
    have h1 : (a.den : ℚ) < ((10 ^ natDigits a.den : ℕ) : ℚ) := by
      exact_mod_cast dhi
    rwa [hcast] at h1
  have hpowpos : ∀ e : ℤ, (0 : ℚ) < (10 : ℚ) ^ e := fun e =>
    zpow_pos (by norm_num) e
  constructor
  · -- lower: 10 ^ (Dn - Dd - 1) < a
    have step1 : (10 : ℚ) ^ ((natDigits a.num.toNat : ℤ) - 1) / (10 : ℚ) ^
        ((natDigits a.den : ℤ)) < (10 : ℚ) ^ ((natDigits a.num.toNat : ℤ) - 1) /
        (a.den : ℚ) :=
      div_lt_div_of_pos_left (hpowpos _) hden0 dhiQ
    have step2 : (10 : ℚ) ^ ((natDigits a.num.toNat : ℤ) - 1) / (a.den : ℚ) ≤
        (a.num.toNat : ℚ) / (a.den : ℚ) :=
      (div_le_div_iff_of_pos_right hden0).2 nloQ
    have heq : (10 : ℚ) ^ ((natDigits a.num.toNat : ℤ) - 1) / (10 : ℚ) ^
        ((natDigits a.den : ℤ)) =
        (10 : ℚ) ^ ((natDigits a.num.toNat : ℤ) - (natDigits a.den : ℤ) - 1) := by
      rw [← zpow_sub₀ h10]
      congr 1
      ring
    calc (10 : ℚ) ^ ((natDigits a.num.toNat : ℤ) - (natDigits a.den : ℤ) - 1)
        = (10 : ℚ) ^ ((natDigits a.num.toNat : ℤ) - 1) /
          (10 : ℚ) ^ ((natDigits a.den : ℤ)) := heq.symm
      _ < (10 : ℚ) ^ ((natDigits a.num.toNat : ℤ) - 1) / (a.den : ℚ) := step1
      _ ≤ (a.num.toNat : ℚ) / (a.den : ℚ) := step2
      _ = a := haq.symm
  · -- upper: a < 10 ^ (Dn - Dd + 1)
    have step1 : (a.num.toNat : ℚ) / (a.den : ℚ) ≤ (a.num.toNat : ℚ) /
        (10 : ℚ) ^ ((natDigits a.den : ℤ) - 1) :=
      div_le_div_of_nonneg_left hnum0.le (hpowpos _) dloQ
    have step2 : (a.num.toNat : ℚ) / (10 : ℚ) ^ ((natDigits a.den : ℤ) - 1) <
        (10 : ℚ) ^ ((natDigits a.num.toNat : ℤ)) /
        (10 : ℚ) ^ ((natDigits a.den : ℤ) - 1) :=
      (div_lt_div_iff_of_pos_right (hpowpos _)).2 nhiQ
    have heq : (10 : ℚ) ^ ((natDigits a.num.toNat : ℤ)) / (10 : ℚ) ^
        ((natDigits a.den : ℤ) - 1) =
        (10 : ℚ) ^ ((natDigits a.num.toNat : ℤ) - (natDigits a.den : ℤ) + 1) := by
      rw [← zpow_sub₀ h10]
      congr 1
      ring
    calc a = (a.num.toNat : ℚ) / (a.den : ℚ) := haq
      _ ≤ (a.num.toNat : ℚ) / (10 : ℚ) ^ ((natDigits a.den : ℤ) - 1) := step1
      _ < (10 : ℚ) ^ ((natDigits a.num.toNat : ℤ)) /
          (10 : ℚ) ^ ((natDigits a.den : ℤ) - 1) := step2
      _ = (10 : ℚ) ^ ((natDigits a.num.toNat : ℤ) - (natDigits a.den : ℤ) + 1) := heq

/-- The computed floorLog10 satisfies the defining property of the floor
of the base-10 logarithm: ten to it is at most the magnitude, and ten to
its successor exceeds the magnitude. -/
theorem floorLog10_spec (q : ℚ) (hq : q ≠ 0) :
    qpow10 (floorLog10 q) ≤ |q| ∧ |q| < qpow10 (floorLog10 q + 1) := by
  have ha0 : 0 < |q| := abs_pos.2 hq
  obtain ⟨hlow, hup⟩ := digits_sandwich |q| ha0
  simp only [floorLog10]
  by_cases hcase :
    qpow10 ((natDigits (|q|).num.toNat : ℤ) - (natDigits (|q|).den : ℤ)) ≤ |q|
  · rw [if_pos hcase]
    refine ⟨hcase, ?_⟩
    rw [qpow10_eq_zpow]
    exact hup
  · rw [if_neg hcase]
    constructor
    · rw [qpow10_eq_zpow]
      exact hlow.le
    · rw [qpow10_eq_zpow]
      push_neg at hcase
      rw [qpow10_eq_zpow] at hcase
      rw [show ((natDigits (|q|).num.toNat : ℤ) - (natDigits (|q|).den : ℤ) - 1 + 1) =
        ((natDigits (|q|).num.toNat : ℤ) - (natDigits (|q|).den : ℤ)) from by ring]
      exact hcase

/-- Modelled from the spec: the rendering exponent is the floor of the
base-10 logarithm of the magnitude rounded down to the nearest multiple
of three (integer floor division by three), clamped to [-9, 9]. -/
def specExponent (q : ℚ) : ℤ := max (min (3 * (floorLog10 q / 3)) 9) (-9)

theorem format_si_unit_num (q : ℚ) (hq : q ≠ 0) (u : String) :
    format_si_unit (.float (.num q)) u =
      .ok (String.mk (fmtG6 (qDiv q (qpow10 (specExponent q)))) ++ " " ++
        siUnitOf (specExponent q) ++ u) := by
  have hmod : floorLog10 q - floorLog10 q % 3 = 3 * (floorLog10 q / 3) := by
    omega
  unfold format_si_unit specExponent
  dsimp only
  rw [if_neg hq, hmod]
  rw [if_neg (show PyFloat.num q ≠ PyFloat.nan from by simp)]

/-- C7 counterexample.  The claim asserts that infinite magnitudes display
with the boundary prefix and never raise; the source instead reaches
int(math.floor(math.log10(inf))), which raises OverflowError. -/
theorem c7_counterexample :
    format_si_unit (.float .inf) "V" = .error .overflowError := by decide

/-- C7 as amended.  The Overload sentinel, an absent value and nan all
render as the Overload literal; zero renders with exponent zero; every
nonzero finite value renders as percent .6g of the value scaled by ten to
the spec exponent (floor of log10 of the magnitude, characterised by the
power sandwich, rounded down to a multiple of three and clamped to
[-9, 9]) followed by the prefix-table entry and the unit, so finite
magnitudes beyond the table saturate at the boundary prefix (1e12 gives
1000 GV); infinite values are the one exception to the no-error rule and
raise OverflowError. -/
theorem c7_theorem :
    (∀ q : ℚ, q ≠ 0 → ∀ u : String,
      format_si_unit (.float (.num q)) u =
        .ok (String.mk (fmtG6 (qDiv q (qpow10 (specExponent q)))) ++ " " ++
          siUnitOf (specExponent q) ++ u)) ∧
    (∀ q : ℚ, q ≠ 0 →
      qpow10 (floorLog10 q) ≤ |q| ∧ |q| < qpow10 (floorLog10 q + 1)) ∧
    (∀ u, format_si_unit .overload u = .ok "Overload") ∧
    (∀ u, format_si_unit .noneV u = .ok "Overload") ∧
    (∀ u, format_si_unit (.float .nan) u = .ok "Overload") ∧
    (∀ u, format_si_unit (.float (.num 0)) u = .ok ("0 " ++ u)) ∧
    format_si_unit (.float (.num 0)) "Ω" = .ok "0 Ω" ∧
    format_si_unit (.float (.num 1500)) "Ω" = .ok "1.5 kΩ" ∧
    format_si_unit (.float (.num 1000000000000)) "V" = .ok "1000 GV" ∧
    (∀ u, format_si_unit (.float .inf) u = .error .overflowError) := by
  refine ⟨format_si_unit_num, floorLog10_spec, fun u => rfl, fun u => rfl,
    fun u => rfl, fun u => rfl, ?_, ?_, ?_, fun u => rfl⟩
  · decide
  · decide
  · decide

/-- Witness for C7 at the concrete value 1500 with the ohm unit. -/
theorem c7_witness :
    ((1500 : ℚ) ≠ 0) ∧
    format_si_unit (.float (.num 1500)) "Ω" =
      .ok (String.mk (fmtG6 (qDiv 1500 (qpow10 (specExponent 1500)))) ++ " " ++
        siUnitOf (specExponent 1500) ++ "Ω") :=
  ⟨by norm_num, c7_theorem.1 1500 (by norm_num) "Ω"⟩

end DMM
